import Mathlib

/-
Verification of the MakeSense sensor-ingestion Lambda
(`AWS Code/write_timestamp_calculate_risk.py`) against its natural-language
specification.

The handler is shallowly embedded: the incoming MQTT event and every DynamoDB
item are modelled as attribute maps (association lists from field names to
values), numbers are modelled as exact rationals, the transcendental angle
derivation is modelled over the reals, and each DynamoDB call (`put_item`,
`scan`, `update_item`) is modelled as a pure operation on an explicit store.
The `scan` response is nondeterministic at the storage layer, so it enters the
model as an explicit parameter (the list of items the scan returned).
Failure of the Python code with an uncaught exception (KeyError / TypeError)
is modelled with `Option` inside the two store-writing functions and with
`Except Stores Stores` for the whole invocation, the error value carrying the
store state at the moment of failure.
-/

namespace RiskLambda

/-- A JSON / DynamoDB attribute value: a string, or a number modelled as an
exact rational. -/
inductive Val where
  | str (s : String)
  | num (q : ℚ)
  deriving DecidableEq

/-- An event or a stored DynamoDB item: an association list from attribute
names to values (Python dict with unique keys). -/
abbrev Item := List (String × Val)

/-- Python `d[k]` on a dict: the value at the first occurrence of key `k`,
`none` modelling a KeyError. -/
def getVal : Item → String → Option Val
  | [], _ => none
  | p :: rest, k => if p.1 = k then some p.2 else getVal rest k

/-- Extract the numeric payload of a value; `none` models a Python TypeError
when a number was required. -/
def asNum : Val → Option ℚ
  | .num q => some q
  | .str _ => none

/-- Look up attribute `k` and require it to be numeric. -/
def getNum (it : Item) (k : String) : Option ℚ :=
  (getVal it k).bind asNum

/-- The `createdDate` sort key of a stored entry (0 when absent, which never
happens for entries this system writes). -/
def keyCD (it : Item) : ℚ :=
  (getNum it "createdDate").getD 0

/-- Python dict assignment `d[k] = v`: replace the value at key `k`, or append
the binding when the key is absent.  Models a DynamoDB `SET` of one attribute. -/
def setAttr : Item → String → Val → Item
  | [], k, v => [(k, v)]
  | p :: rest, k, v => if p.1 = k then (k, v) :: rest else p :: setAttr rest k v

/-- DynamoDB `put_item` on a keyed table: replace the (unique) row matching the
key predicate `p`, or append the new row. -/
def putRow (p : Item → Bool) (new : Item) : List Item → List Item
  | [] => [new]
  | e :: rest => if p e then new :: rest else e :: putRow p new rest

/-- DynamoDB `update_item` on a keyed table: update the (unique) row matching
the key predicate `p` in place, or append the freshly created row `new` when
the key is absent (upsert semantics). -/
def upsertRow (p : Item → Bool) (upd : Item → Item) (new : Item) :
    List Item → List Item
  | [] => [new]
  | e :: rest => if p e then upd e :: rest else e :: upsertRow p upd new rest

/-- Insert `a` into `l` before the first element `b` with `le a b = true`
(the insertion step of a stable insertion sort). -/
def orderedInsertB (le : α → α → Bool) (a : α) : List α → List α
  | [] => [a]
  | b :: t => if le a b then a :: b :: t else b :: orderedInsertB le a t

/-- Stable insertion sort.  The Python `list.sort` method is a stable sort, and any two
stable sorts agree on every input, so this models `array.sort(key=...)`
faithfully. -/
def insertionSortB (le : α → α → Bool) : List α → List α
  | [] => []
  | a :: t => orderedInsertB le a (insertionSortB le t)

/-- Key extraction performed by the Python sort-with-key call over `createdDate`:
decorate every item with its `createdDate`; a missing or non-numeric
`createdDate` raises (models KeyError / TypeError during sorting). -/
def decorate : List Item → Option (List (ℚ × Item))
  | [] => some []
  | it :: rest =>
    match getNum it "createdDate", decorate rest with
    | some cd, some ds => some ((cd, it) :: ds)
    | _, _ => none

/-- The two-argument arctangent `math.atan2 y x`: the angle of the point
`(x, y)`, in `(-π, π]`, with `atan2 0 0 = 0`. -/
noncomputable def atan2 (y x : ℝ) : ℝ :=
  if 0 < x then Real.arctan (y / x)
  else if x < 0 then
    (if 0 ≤ y then Real.arctan (y / x) + Real.pi else Real.arctan (y / x) - Real.pi)
  else if 0 < y then Real.pi / 2
  else if y < 0 then -(Real.pi / 2)
  else 0

/-- Source line `roll = round(abs(math.atan2(y, z))*57.3)`, where in the
handler `x`, `y`, `z` are the local variables bound to `accl_x`, `accl_z`,
`accl_y` respectively. -/
noncomputable def derive_roll (x y z : ℝ) : ℤ :=
  round (|atan2 y z| * 57.3)

/-- Source line `pitch = round(abs(math.atan2(-x, math.sqrt(y*y + z*z)))*57.3)`. -/
noncomputable def derive_pitch (x y z : ℝ) : ℤ :=
  round (|atan2 (-x) (Real.sqrt (y * y + z * z))| * 57.3)

/-- The key predicate of the `entries` table (primary key `entryUUID`). -/
def entryKeyIs (uuid : Val) : Item → Bool :=
  fun e => decide (getVal e "entryUUID" = some uuid)

/-- The key predicate of the `devices` table (primary key `deviceID`). -/
def deviceKeyIs (did : Val) : Item → Bool :=
  fun e => decide (getVal e "deviceID" = some did)

/-- Embedding of `insert_entry(event, roll, pitch, timestamp)`: insert one item
into the `entries` table, a minimal item for `status == -1`, the full item for
`status == 0`, and nothing for any other status.  `none` models an uncaught
KeyError / failed numeric conversion before the write. -/
def insert_entry (event : Item) (roll pitch : ℤ) (timestamp : ℤ)
    (entries : List Item) : Option (List Item) :=
  match getVal event "status" with
  | none => none
  | some status =>
    if status = Val.num (-1) then
      match getVal event "entryUUID", getVal event "deviceID" with
      | some uuid, some dev =>
        some (putRow (entryKeyIs uuid)
          [("entryUUID", uuid), ("status", status), ("deviceID", dev),
           ("createdDate", Val.num timestamp)] entries)
      | _, _ => none
    else if status = Val.num 0 then
      match getVal event "entryUUID", getVal event "deviceID" with
      | some uuid, some dev =>
        match getNum event "accl_x", getNum event "accl_y", getNum event "accl_z" with
        | some ax, some ay, some az =>
          match getNum event "gyro_x", getNum event "gyro_y", getNum event "gyro_z" with
          | some gx, some gy, some gz =>
            match getVal event "rain", getVal event "soil" with
            | some rain, some soil =>
              some (putRow (entryKeyIs uuid)
                [("entryUUID", uuid), ("status", status), ("deviceID", dev),
                 ("accl_x", Val.num ax), ("accl_y", Val.num ay), ("accl_z", Val.num az),
                 ("gyro_x", Val.num gx), ("gyro_y", Val.num gy), ("gyro_z", Val.num gz),
                 ("roll", Val.num roll), ("pitch", Val.num pitch),
                 ("rain", rain), ("soil", soil),
                 ("createdDate", Val.num timestamp)] entries)
            | _, _ => none
          | _, _, _ => none
        | _, _, _ => none
      | _, _ => none
    else
      some entries

/-- The `devices` table write of `calculate_riskfactor`:
`update_item(Key={deviceID}, SET riskFactor = :v1, lastUpdated = :v2)`. -/
def upsertDevice (did : Val) (risk_factor : ℚ) (timestamp : ℤ)
    (devices : List Item) : List Item :=
  upsertRow (deviceKeyIs did)
    (fun e => setAttr (setAttr e "riskFactor" (Val.num risk_factor))
      "lastUpdated" (Val.num timestamp))
    [("deviceID", did), ("riskFactor", Val.num risk_factor),
     ("lastUpdated", Val.num timestamp)]
    devices

/-- Embedding of `calculate_riskfactor(event, roll, pitch, timestamp)`.
`scanItems` is the item list returned by the bounded filtered scan of the
`entries` table (the `Items` field of the scan response), a nondeterministic input of the storage
collaborator.  Returns the new `devices` table, `none` modelling an uncaught
exception (in which case the devices table is untouched). -/
def calculate_riskfactor (event : Item) (roll pitch : ℤ) (timestamp : ℤ)
    (scanItems : List Item) (devices : List Item) : Option (List Item) :=
  match getVal event "status" with
  | none => none
  | some status =>
    if status ≠ Val.num 0 then
      some devices
    else
      match getVal event "deviceID" with
      | none => none
      | some device_id =>
        if 2 < scanItems.length then
          match decorate scanItems with
          | none => none
          | some keyed =>
            let sorted := (insertionSortB (fun a b => decide (a.1 ≤ b.1)) keyed).map
              (fun p => p.2)
            match sorted[0]?, sorted[1]? with
            | some e0, some e1 =>
              match getNum e0 "soil", getNum e0 "roll", getNum e0 "pitch" with
              | some s0, some r0, some p0 =>
                let k1 := s0 / 1023 + (r0 / 180 + p0 / 90) / 2
                match getNum e1 "soil", getNum e1 "roll", getNum e1 "pitch" with
                | some s1, some r1, some p1 =>
                  let k2 := s1 / 1023 + (r1 / 180 + p1 / 90) / 2
                  let d := |k1 - k2|
                  match getNum event "soil" with
                  | none => none
                  | some soil =>
                    let k := soil / 1023 + ((roll : ℚ) / 180 + (pitch : ℚ) / 90) / 2
                    some (upsertDevice device_id (d * k) timestamp devices)
                | _, _, _ => none
              | _, _, _ => none
            | _, _ => none
        else
          some (upsertDevice device_id 0 timestamp devices)

/-- The two DynamoDB tables the Lambda touches. -/
structure Stores where
  entries : List Item
  devices : List Item
  deriving DecidableEq

/-- Embedding of `lambda_handler(event, context)`.  `epochtime` is the
server-assigned UNIX timestamp, `scanItems` the response of the storage layer to the
scan issued by `calculate_riskfactor`.  `Except.error st` models the invocation
failing with an uncaught exception, `st` being the store state at that moment
(so a failure inside the aggregation step still keeps the already-written
entry). -/
noncomputable def lambda_handler (event : Item) (epochtime : ℤ)
    (scanItems : List Item) (st : Stores) : Except Stores Stores :=
  match getNum event "accl_x", getNum event "accl_z", getNum event "accl_y" with
  | some x, some y, some z =>
    let roll := derive_roll (x : ℝ) (y : ℝ) (z : ℝ)
    let pitch := derive_pitch (x : ℝ) (y : ℝ) (z : ℝ)
    match insert_entry event roll pitch epochtime st.entries with
    | none => Except.error st
    | some entries1 =>
      match calculate_riskfactor event roll pitch epochtime scanItems st.devices with
      | none => Except.error ⟨entries1, st.devices⟩
      | some devices1 => Except.ok ⟨entries1, devices1⟩
  | _, _, _ => Except.error st

/-! ### Specification-side definitions

These follow the wording of the spec (sections 4.1 and 4.3) and are compared
against the embedded source code in the claim theorems. -/

/-- Spec formula `k_i = soil_i/1023 + (roll_i/180 + pitch_i/90)/2`. -/
def k_spec (soil roll pitch : ℚ) : ℚ :=
  soil / 1023 + (roll / 180 + pitch / 90) / 2

/-- Spec step 2 of the Risk Aggregator: "Sort the retrieved sample ascending by
`createdDate`". -/
def sortByCreatedDate (l : List Item) : List Item :=
  insertionSortB (fun a b => decide (keyCD a ≤ keyCD b)) l

/-- Spec formula `roll = round(|atan2(y, z)| · 57.3)` with the axis remapping of the
spec, `y = event.accl_z`, `z = event.accl_y` (arguments are the event fields
`accl_x`, `accl_y`, `accl_z` fields in that order). -/
noncomputable def spec_roll (ax ay az : ℝ) : ℤ :=
  round (|atan2 az ay| * 57.3)

/-- Spec formula `pitch = round(|atan2(-x, sqrt(y² + z²))| · 57.3)` with the
axis remapping of the spec (arguments are the event fields `accl_x`,
`accl_y`, `accl_z`). -/
noncomputable def spec_pitch (ax ay az : ℝ) : ℤ :=
  round (|atan2 (-ax) (Real.sqrt (az ^ 2 + ay ^ 2))| * 57.3)

/-! ### Helper lemmas: attribute maps -/

theorem getVal_setAttr_self (it : Item) (k : String) (v : Val) :
    getVal (setAttr it k v) k = some v := by
  induction it with
  | nil => simp [setAttr, getVal]
  | cons p rest ih =>
    by_cases h : p.1 = k
    · simp [setAttr, h, getVal]
    · simp [setAttr, h, getVal, ih]

theorem getVal_setAttr_ne (it : Item) (k k' : String) (v : Val) (h : k' ≠ k) :
    getVal (setAttr it k v) k' = getVal it k' := by
  induction it with
  | nil => simp [setAttr, getVal, Ne.symm h]
  | cons p rest ih =>
    by_cases hp : p.1 = k
    · simp [setAttr, hp, getVal, Ne.symm h]
    · simp [setAttr, hp, getVal, ih]

/-! ### Helper lemmas: keyed-table writes -/

theorem putRow_of_fresh (p : Item → Bool) (new : Item) (store : List Item)
    (h : ∀ e ∈ store, p e = false) :
    putRow p new store = store ++ [new] := by
  induction store with
  | nil => simp [putRow]
  | cons e rest ih =>
    have he := h e (by simp)
    simp [putRow, he, ih (fun x hx => h x (by simp [hx]))]

theorem mem_upsertRow_of_not_p (p : Item → Bool) (upd : Item → Item) (new e : Item)
    (store : List Item) (he : e ∈ store) (hp : p e = false) :
    e ∈ upsertRow p upd new store := by
  induction store with
  | nil => simp at he
  | cons b rest ih =>
    rcases List.mem_cons.mp he with rfl | hmem
    · simp [upsertRow, hp]
    · by_cases hb : p b
      · simp [upsertRow, hb, hmem]
      · simp only [upsertRow, hb, Bool.false_eq_true, if_false, List.mem_cons]
        exact Or.inr (ih hmem)

theorem mem_upsertRow_cases (p : Item → Bool) (upd : Item → Item) (new r : Item)
    (store : List Item) (hr : r ∈ upsertRow p upd new store) :
    r ∈ store ∨ (∃ e ∈ store, r = upd e) ∨ r = new := by
  induction store with
  | nil =>
    simp [upsertRow] at hr
    exact Or.inr (Or.inr hr)
  | cons b rest ih =>
    by_cases hb : p b
    · simp only [upsertRow, hb, if_true, List.mem_cons] at hr
      rcases hr with rfl | hr
      · exact Or.inr (Or.inl ⟨b, by simp, rfl⟩)
      · exact Or.inl (by simp [hr])
    · simp only [upsertRow, hb, Bool.false_eq_true, if_false, List.mem_cons] at hr
      rcases hr with rfl | hr
      · exact Or.inl (by simp)
      · rcases ih hr with h | ⟨e, he, hre⟩ | h
        · exact Or.inl (by simp [h])
        · exact Or.inr (Or.inl ⟨e, by simp [he], hre⟩)
        · exact Or.inr (Or.inr h)

theorem find?_upsertRow (p : Item → Bool) (upd : Item → Item) (new : Item)
    (store : List Item)
    (hupd : ∀ e, p e = true → p (upd e) = true) (hnew : p new = true) :
    (upsertRow p upd new store).find? p =
      some (match store.find? p with | some e => upd e | none => new) := by
  induction store with
  | nil => simp [upsertRow, List.find?, hnew]
  | cons b rest ih =>
    by_cases hb : p b
    · simp [upsertRow, hb, List.find?, hupd b hb]
    · simp [upsertRow, hb, List.find?, ih]

/-! ### Helper lemmas: stable insertion sort -/

theorem perm_orderedInsertB (le : α → α → Bool) (a : α) (l : List α) :
    (orderedInsertB le a l).Perm (a :: l) := by
  induction l with
  | nil => simp [orderedInsertB]
  | cons b t ih =>
    by_cases h : le a b
    · simp [orderedInsertB, h]
    · simp only [orderedInsertB, h, Bool.false_eq_true, if_false]
      exact (ih.cons b).trans (List.Perm.swap a b t)

theorem perm_insertionSortB (le : α → α → Bool) (l : List α) :
    (insertionSortB le l).Perm l := by
  induction l with
  | nil => simp [insertionSortB]
  | cons a t ih =>
    exact (perm_orderedInsertB le a (insertionSortB le t)).trans (ih.cons a)

theorem mem_orderedInsertB (le : α → α → Bool) (a x : α) (l : List α) :
    x ∈ orderedInsertB le a l ↔ x = a ∨ x ∈ l :=
  (perm_orderedInsertB le a l).mem_iff.trans (by simp)

theorem sorted_orderedInsertB (le : α → α → Bool)
    (htot : ∀ a b, le a b = true ∨ le b a = true)
    (htrans : ∀ a b c, le a b = true → le b c = true → le a c = true)
    (a : α) (l : List α) (hl : l.Pairwise (fun x y => le x y = true)) :
    (orderedInsertB le a l).Pairwise (fun x y => le x y = true) := by
  induction l with
  | nil => simp [orderedInsertB]
  | cons b t ih =>
    rcases List.pairwise_cons.mp hl with ⟨hb, ht⟩
    by_cases h : le a b
    · rw [orderedInsertB, if_pos h]
      refine List.pairwise_cons.mpr ⟨?_, hl⟩
      intro x hx
      rcases List.mem_cons.mp hx with rfl | hx
      · exact h
      · exact htrans a b x h (hb x hx)
    · have hba : le b a = true := (htot a b).resolve_left h
      rw [orderedInsertB, if_neg h]
      refine List.pairwise_cons.mpr ⟨?_, ih ht⟩
      intro x hx
      rcases (mem_orderedInsertB le a x t).mp hx with rfl | hx
      · exact hba
      · exact hb x hx

theorem sorted_insertionSortB (le : α → α → Bool)
    (htot : ∀ a b, le a b = true ∨ le b a = true)
    (htrans : ∀ a b c, le a b = true → le b c = true → le a c = true)
    (l : List α) :
    (insertionSortB le l).Pairwise (fun x y => le x y = true) := by
  induction l with
  | nil => simp [insertionSortB]
  | cons a t ih => exact sorted_orderedInsertB le htot htrans a _ ih

theorem orderedInsertB_map (le : β → β → Bool) (f : α → β) (a : α) (l : List α) :
    orderedInsertB le (f a) (l.map f)
      = (orderedInsertB (fun x y => le (f x) (f y)) a l).map f := by
  induction l with
  | nil => simp [orderedInsertB]
  | cons b t ih =>
    by_cases h : le (f a) (f b)
    · simp [orderedInsertB, h]
    · simp [orderedInsertB, h, ih]

theorem insertionSortB_map (le : β → β → Bool) (f : α → β) (l : List α) :
    insertionSortB le (l.map f)
      = (insertionSortB (fun x y => le (f x) (f y)) l).map f := by
  induction l with
  | nil => simp [insertionSortB]
  | cons b t ih => simp [insertionSortB, ih, orderedInsertB_map]

/-! ### Helper lemmas: key decoration -/

theorem decorate_eq_some (l : List Item)
    (h : ∀ it ∈ l, (getNum it "createdDate").isSome = true) :
    decorate l = some (l.map (fun it => (keyCD it, it))) := by
  induction l with
  | nil => simp [decorate]
  | cons it rest ih =>
    have hit := h it (by simp)
    cases hg : getNum it "createdDate" with
    | none => rw [hg] at hit; simp at hit
    | some cd =>
      have : keyCD it = cd := by simp [keyCD, hg]
      simp [decorate, hg, ih (fun x hx => h x (by simp [hx])), this]

/-! ### Helper lemmas: range of atan2 and of round -/

theorem abs_atan2_le_pi (y x : ℝ) : |atan2 y x| ≤ Real.pi := by
  have hpi := Real.pi_pos
  have ha := Real.arctan_lt_pi_div_two (y / x)
  have hb := Real.neg_pi_div_two_lt_arctan (y / x)
  unfold atan2
  split_ifs with h1 h2 h3 h4 h5
  · rw [abs_le]; constructor <;> linarith
  · have hyx : y / x ≤ 0 := div_nonpos_iff.mpr (Or.inl ⟨h3, h2.le⟩)
    have hle : Real.arctan (y / x) ≤ 0 := by
      have := Real.arctan_strictMono.monotone hyx
      rwa [Real.arctan_zero] at this
    rw [abs_le]; constructor <;> linarith
  · have hyx : 0 ≤ y / x := (div_pos_iff.mpr (Or.inr ⟨not_le.mp h3, h2⟩)).le
    have hge : 0 ≤ Real.arctan (y / x) := by
      have := Real.arctan_strictMono.monotone hyx
      rwa [Real.arctan_zero] at this
    rw [abs_le]; constructor <;> linarith
  · rw [abs_le]; constructor <;> linarith
  · rw [abs_le]; constructor <;> linarith
  · simpa using hpi.le

theorem abs_atan2_le_pi_div_two (y x : ℝ) (hx : 0 ≤ x) :
    |atan2 y x| ≤ Real.pi / 2 := by
  have hpi := Real.pi_pos
  have ha := Real.arctan_lt_pi_div_two (y / x)
  have hb := Real.neg_pi_div_two_lt_arctan (y / x)
  unfold atan2
  split_ifs with h1 h2 h3 h4 h5
  · rw [abs_le]; constructor <;> linarith
  · exact absurd h2 (not_lt.mpr hx)
  · exact absurd h2 (not_lt.mpr hx)
  · rw [abs_le]; constructor <;> linarith
  · rw [abs_le]; constructor <;> linarith
  · simpa using (by positivity : (0 : ℝ) ≤ Real.pi / 2)

theorem round_nonneg_of_nonneg (r : ℝ) (h : 0 ≤ r) : 0 ≤ round r := by
  rw [round_eq]
  exact Int.le_floor.mpr (by push_cast; linarith)

theorem round_le_of_lt_half (r : ℝ) (n : ℤ) (h : r < (n : ℝ) + 1 / 2) :
    round r ≤ n := by
  rw [round_eq]
  have : ⌊r + 1 / 2⌋ < n + 1 := Int.floor_lt.mpr (by push_cast; linarith)
  omega

theorem derive_roll_bounds (x y z : ℝ) :
    0 ≤ derive_roll x y z ∧ derive_roll x y z ≤ 180 := by
  unfold derive_roll
  have h1 := abs_atan2_le_pi y z
  have h2 := Real.pi_lt_d2
  have h0 : (0 : ℝ) ≤ |atan2 y z| := abs_nonneg _
  constructor
  · exact round_nonneg_of_nonneg _ (by positivity)
  · exact round_le_of_lt_half _ 180 (by push_cast; linarith)

theorem derive_pitch_bounds (x y z : ℝ) :
    0 ≤ derive_pitch x y z ∧ derive_pitch x y z ≤ 90 := by
  unfold derive_pitch
  have h1 := abs_atan2_le_pi_div_two (-x) (Real.sqrt (y * y + z * z))
    (Real.sqrt_nonneg _)
  have h2 := Real.pi_lt_d2
  have h0 : (0 : ℝ) ≤ |atan2 (-x) (Real.sqrt (y * y + z * z))| := abs_nonneg _
  constructor
  · exact round_nonneg_of_nonneg _ (by positivity)
  · exact round_le_of_lt_half _ 90 (by push_cast; linarith)

/-! ### Helper lemmas: the devices-table upsert -/

theorem upsertDevice_find (did : Val) (rf : ℚ) (ts : ℤ) (devices : List Item) :
    ∃ row, (upsertDevice did rf ts devices).find? (deviceKeyIs did) = some row ∧
      getVal row "riskFactor" = some (Val.num rf) ∧
      getVal row "lastUpdated" = some (Val.num ts) := by
  have hRne : ("deviceID" : String) ≠ "riskFactor" := by decide
  have hLne : ("deviceID" : String) ≠ "lastUpdated" := by decide
  have hRL : ("riskFactor" : String) ≠ "lastUpdated" := by decide
  have hupd : ∀ e : Item, deviceKeyIs did e = true →
      deviceKeyIs did (setAttr (setAttr e "riskFactor" (Val.num rf))
        "lastUpdated" (Val.num ts)) = true := by
    intro e he
    simp only [deviceKeyIs, decide_eq_true_eq] at he ⊢
    rw [getVal_setAttr_ne _ _ _ _ hLne, getVal_setAttr_ne _ _ _ _ hRne]
    exact he
  have hnew : deviceKeyIs did
      [("deviceID", did), ("riskFactor", Val.num rf), ("lastUpdated", Val.num ts)]
        = true := by
    simp [deviceKeyIs, getVal]
  have hfind := find?_upsertRow (deviceKeyIs did) _ _ devices hupd hnew
  unfold upsertDevice
  rw [hfind]
  cases hf : devices.find? (deviceKeyIs did) with
  | none =>
    refine ⟨_, rfl, ?_, ?_⟩ <;> simp [getVal]
  | some e =>
    refine ⟨_, rfl, ?_, ?_⟩
    · rw [getVal_setAttr_ne _ _ _ _ hRL, getVal_setAttr_self]
    · rw [getVal_setAttr_self]

/-! ### Claim theorems -/

/-- C3: for every event the derived angles are computed with the axis remapping
logical y = accl_z, logical z = accl_y, logical x = accl_x: the roll and
pitch (whose locals x, y, z are bound to accl_x, accl_z, accl_y) equal the spec
formulas roll = round(|atan2(y, z)| * 57.3) and
pitch = round(|atan2(-x, sqrt(y^2 + z^2))| * 57.3), and the constant 57.3 used
by both is not 180 / pi. -/
theorem angle_derivation_matches_spec (ax ay az : ℝ) :
    derive_roll ax az ay = spec_roll ax ay az ∧
    derive_pitch ax az ay = spec_pitch ax ay az ∧
    (57.3 : ℝ) ≠ 180 / Real.pi := by
  refine ⟨rfl, ?_, ?_⟩
  · have h : az * az + ay * ay = az ^ 2 + ay ^ 2 := by ring
    unfold derive_pitch spec_pitch
    rw [h]
  · intro h
    have hpi := Real.pi_gt_d6
    have h2 : (57.3 : ℝ) * Real.pi = 180 := by
      rw [h]
      field_simp
    linarith

/-- C4: the derived roll always lies in [0, 180] and the derived pitch in
[0, 90]; both are non-negative by the absolute-value construction. -/
theorem roll_pitch_ranges (x y z : ℝ) :
    0 ≤ derive_roll x y z ∧ derive_roll x y z ≤ 180 ∧
    0 ≤ derive_pitch x y z ∧ derive_pitch x y z ≤ 90 :=
  ⟨(derive_roll_bounds x y z).1, (derive_roll_bounds x y z).2,
   (derive_pitch_bounds x y z).1, (derive_pitch_bounds x y z).2⟩

/-- C2: for a status-OK event whose retrieval yields fewer than 3 matching
prior entries, the Risk Aggregator writes riskFactor = 0 exactly (an explicit
upsert of the device row with riskFactor = 0 and lastUpdated = timestamp),
regardless of the feature values carried by the current event. -/
theorem riskFactor_reset_on_insufficient_history (ev : Item) (roll pitch ts : ℤ)
    (scan devices : List Item) (did : Val)
    (hstatus : getVal ev "status" = some (Val.num 0))
    (hdid : getVal ev "deviceID" = some did)
    (hlen : scan.length < 3) :
    calculate_riskfactor ev roll pitch ts scan devices =
      some (upsertDevice did 0 ts devices) ∧
    ∃ row, (upsertDevice did 0 ts devices).find? (deviceKeyIs did) = some row ∧
      getVal row "riskFactor" = some (Val.num 0) ∧
      getVal row "lastUpdated" = some (Val.num ts) := by
  constructor
  · have h2 : ¬(2 < scan.length) := by omega
    simp [calculate_riskfactor, hstatus, hdid, h2]
  · exact upsertDevice_find did 0 ts devices

/-- C2 witness: a concrete status-OK event with an empty retrieval sample. -/
theorem riskFactor_reset_on_insufficient_history_witness :
    ([] : List Item).length < 3 ∧
    (calculate_riskfactor [("status", Val.num 0), ("deviceID", Val.str "d1")]
        7 3 99 [] [] = some (upsertDevice (Val.str "d1") 0 99 []) ∧
      ∃ row, (upsertDevice (Val.str "d1") 0 99 []).find?
          (deviceKeyIs (Val.str "d1")) = some row ∧
        getVal row "riskFactor" = some (Val.num 0) ∧
        getVal row "lastUpdated" = some (Val.num 99)) :=
  ⟨by norm_num,
   riskFactor_reset_on_insufficient_history _ 7 3 99 _ _ _ rfl rfl (by norm_num)⟩

/-- C6: after the Risk Aggregator runs for a status-OK event with non-negative
soil, roll and pitch, the device row holds a defined, non-negative riskFactor
(0 in the insufficient-history branch, |k1 - k2| * k_cur in the computed
branch) together with lastUpdated = timestamp. -/
theorem riskFactor_defined_and_nonneg (ev : Item) (roll pitch ts : ℤ)
    (scan devices devices1 : List Item) (did : Val) (soil : ℚ)
    (hstatus : getVal ev "status" = some (Val.num 0))
    (hdid : getVal ev "deviceID" = some did)
    (hsoil : getNum ev "soil" = some soil)
    (hsoil0 : 0 ≤ soil) (hroll : 0 ≤ roll) (hpitch : 0 ≤ pitch)
    (hrun : calculate_riskfactor ev roll pitch ts scan devices = some devices1) :
    ∃ row rf, devices1.find? (deviceKeyIs did) = some row ∧
      getVal row "riskFactor" = some (Val.num rf) ∧
      getVal row "lastUpdated" = some (Val.num ts) ∧ 0 ≤ rf := by
  have hk : (0 : ℚ) ≤ soil / 1023 + ((roll : ℚ) / 180 + (pitch : ℚ) / 90) / 2 := by
    have h1 : (0 : ℚ) ≤ (roll : ℚ) := by exact_mod_cast hroll
    have h2 : (0 : ℚ) ≤ (pitch : ℚ) := by exact_mod_cast hpitch
    linarith
  by_cases hl : 2 < scan.length
  · simp [calculate_riskfactor, hstatus, hdid, hsoil, hl] at hrun
    split at hrun
    · exact absurd hrun (by simp)
    · split at hrun
      · split at hrun
        · split at hrun
          · rw [Option.some_inj] at hrun
            subst hrun
            obtain ⟨row, hfind, hRF, hLU⟩ := upsertDevice_find did _ ts devices
            exact ⟨row, _, hfind, hRF, hLU, mul_nonneg (abs_nonneg _) hk⟩
          · exact absurd hrun (by simp)
        · exact absurd hrun (by simp)
      · exact absurd hrun (by simp)
  · simp [calculate_riskfactor, hstatus, hdid, hl] at hrun
    subst hrun
    obtain ⟨row, hfind, hRF, hLU⟩ := upsertDevice_find did 0 ts devices
    exact ⟨row, 0, hfind, hRF, hLU, le_refl 0⟩

/-- C6 witness: a concrete status-OK run of the aggregator. -/
theorem riskFactor_defined_and_nonneg_witness :
    (0 : ℚ) ≤ 100 ∧
    ∃ row rf, (upsertDevice (Val.str "d1") 0 99 []).find?
        (deviceKeyIs (Val.str "d1")) = some row ∧
      getVal row "riskFactor" = some (Val.num rf) ∧
      getVal row "lastUpdated" = some (Val.num 99) ∧ 0 ≤ rf :=
  ⟨by norm_num,
   riskFactor_defined_and_nonneg
     [("status", Val.num 0), ("deviceID", Val.str "d1"), ("soil", Val.num 100)]
     5 5 99 [] [] (upsertDevice (Val.str "d1") 0 99 []) (Val.str "d1") 100
     rfl rfl rfl (by norm_num) (by norm_num) (by norm_num) rfl⟩

/-- The sort performed inside `calculate_riskfactor` (decorate with the
`createdDate` key, sort the pairs, strip the keys) is exactly the spec-side
`sortByCreatedDate`. -/
theorem calc_sort_eq_sortByCreatedDate (scan : List Item) :
    (insertionSortB (fun a b : ℚ × Item => decide (a.1 ≤ b.1))
      (scan.map (fun it => (keyCD it, it)))).map (fun p => p.2)
      = sortByCreatedDate scan := by
  rw [insertionSortB_map (fun a b : ℚ × Item => decide (a.1 ≤ b.1))
    (fun it => (keyCD it, it)) scan, List.map_map]
  have hcomp : ((fun p : ℚ × Item => p.2) ∘ (fun it => (keyCD it, it))) = id := rfl
  rw [hcomp, List.map_id]
  rfl

/-- Core computation of the sufficient-history branch of
`calculate_riskfactor`, phrased with the spec-side sort and k-formula. -/
theorem calculate_riskfactor_eq_formula (ev : Item) (roll pitch ts : ℤ)
    (scan devices : List Item) (did : Val) (soil s0 r0 p0 s1 r1 p1 : ℚ)
    (e0 e1 : Item)
    (hstatus : getVal ev "status" = some (Val.num 0))
    (hdid : getVal ev "deviceID" = some did)
    (hsoil : getNum ev "soil" = some soil)
    (hlen : 2 < scan.length)
    (hcd : ∀ it ∈ scan, (getNum it "createdDate").isSome = true)
    (h0 : (sortByCreatedDate scan)[0]? = some e0)
    (h1 : (sortByCreatedDate scan)[1]? = some e1)
    (hs0 : getNum e0 "soil" = some s0) (hr0 : getNum e0 "roll" = some r0)
    (hp0 : getNum e0 "pitch" = some p0)
    (hs1 : getNum e1 "soil" = some s1) (hr1 : getNum e1 "roll" = some r1)
    (hp1 : getNum e1 "pitch" = some p1) :
    calculate_riskfactor ev roll pitch ts scan devices =
      some (upsertDevice did
        (|k_spec s0 r0 p0 - k_spec s1 r1 p1| * k_spec soil (roll : ℚ) (pitch : ℚ))
        ts devices) := by
  have hdec : decorate scan = some (scan.map (fun it => (keyCD it, it))) :=
    decorate_eq_some scan hcd
  simp only [calculate_riskfactor, hstatus, hdid, hsoil, hlen, hdec, if_true, ne_eq,
    not_true_eq_false, if_false]
  rw [calc_sort_eq_sortByCreatedDate scan]
  simp only [h0, h1, hs0, hr0, hp0, hs1, hr1, hp1, k_spec]

/-- C1: for a status-OK event whose retrieval yields at least 3 matching
entries, the risk factor written is d * k_cur, where the sample is sorted
ascending by createdDate (the sorted list is a permutation of the sample and
is pairwise ordered by createdDate), the two chronologically-earliest entries
of that sorted sample give k_0 and k_1 via k_i = soil_i/1023 +
(roll_i/180 + pitch_i/90)/2, d = |k_0 - k_1|, and k_cur is the same formula
on the soil and derived roll/pitch of the current event. -/
theorem riskFactor_formula_of_sufficient_history (ev : Item) (roll pitch ts : ℤ)
    (scan devices : List Item) (did : Val) (soil s0 r0 p0 s1 r1 p1 : ℚ)
    (e0 e1 : Item)
    (hstatus : getVal ev "status" = some (Val.num 0))
    (hdid : getVal ev "deviceID" = some did)
    (hsoil : getNum ev "soil" = some soil)
    (hlen : 2 < scan.length)
    (hcd : ∀ it ∈ scan, (getNum it "createdDate").isSome = true)
    (h0 : (sortByCreatedDate scan)[0]? = some e0)
    (h1 : (sortByCreatedDate scan)[1]? = some e1)
    (hs0 : getNum e0 "soil" = some s0) (hr0 : getNum e0 "roll" = some r0)
    (hp0 : getNum e0 "pitch" = some p0)
    (hs1 : getNum e1 "soil" = some s1) (hr1 : getNum e1 "roll" = some r1)
    (hp1 : getNum e1 "pitch" = some p1) :
    calculate_riskfactor ev roll pitch ts scan devices =
      some (upsertDevice did
        (|k_spec s0 r0 p0 - k_spec s1 r1 p1| * k_spec soil (roll : ℚ) (pitch : ℚ))
        ts devices) ∧
    (sortByCreatedDate scan).Perm scan ∧
    List.Pairwise (fun a b => keyCD a ≤ keyCD b) (sortByCreatedDate scan) := by
  refine ⟨calculate_riskfactor_eq_formula ev roll pitch ts scan devices did soil
    s0 r0 p0 s1 r1 p1 e0 e1 hstatus hdid hsoil hlen hcd h0 h1 hs0 hr0 hp0 hs1
    hr1 hp1, perm_insertionSortB _ scan, ?_⟩
  have htot : ∀ a b : Item,
      decide (keyCD a ≤ keyCD b) = true ∨ decide (keyCD b ≤ keyCD a) = true := by
    intro a b
    rcases le_total (keyCD a) (keyCD b) with h | h
    · exact Or.inl (decide_eq_true h)
    · exact Or.inr (decide_eq_true h)
  have htrans : ∀ a b c : Item, decide (keyCD a ≤ keyCD b) = true →
      decide (keyCD b ≤ keyCD c) = true → decide (keyCD a ≤ keyCD c) = true := by
    intro a b c hab hbc
    exact decide_eq_true (le_trans (of_decide_eq_true hab) (of_decide_eq_true hbc))
  exact (sorted_insertionSortB _ htot htrans scan).imp
    (fun h => of_decide_eq_true h)

/-- C1 witness: the end-to-end scenario of the spec itself, with the sample given in
shuffled order. -/
theorem riskFactor_formula_of_sufficient_history_witness :
    2 < ([
      [("soil", Val.num 200), ("roll", Val.num 20), ("pitch", Val.num 10),
        ("createdDate", Val.num 2)],
      [("soil", Val.num 900), ("roll", Val.num 170), ("pitch", Val.num 80),
        ("createdDate", Val.num 3)],
      [("soil", Val.num 100), ("roll", Val.num 10), ("pitch", Val.num 5),
        ("createdDate", Val.num 1)]] : List Item).length ∧
    calculate_riskfactor
      [("status", Val.num 0), ("deviceID", Val.str "d1"), ("soil", Val.num 500)]
      90 45 100
      [[("soil", Val.num 200), ("roll", Val.num 20), ("pitch", Val.num 10),
          ("createdDate", Val.num 2)],
       [("soil", Val.num 900), ("roll", Val.num 170), ("pitch", Val.num 80),
          ("createdDate", Val.num 3)],
       [("soil", Val.num 100), ("roll", Val.num 10), ("pitch", Val.num 5),
          ("createdDate", Val.num 1)]] [] =
      some (upsertDevice (Val.str "d1")
        (|k_spec 100 10 5 - k_spec 200 20 10| *
          k_spec 500 ((90 : ℤ) : ℚ) ((45 : ℤ) : ℚ)) 100 []) :=
  ⟨by norm_num,
   (riskFactor_formula_of_sufficient_history
      [("status", Val.num 0), ("deviceID", Val.str "d1"), ("soil", Val.num 500)]
      90 45 100
      [[("soil", Val.num 200), ("roll", Val.num 20), ("pitch", Val.num 10),
          ("createdDate", Val.num 2)],
       [("soil", Val.num 900), ("roll", Val.num 170), ("pitch", Val.num 80),
          ("createdDate", Val.num 3)],
       [("soil", Val.num 100), ("roll", Val.num 10), ("pitch", Val.num 5),
          ("createdDate", Val.num 1)]] []
      (Val.str "d1") 500 100 10 5 200 20 10
      [("soil", Val.num 100), ("roll", Val.num 10), ("pitch", Val.num 5),
        ("createdDate", Val.num 1)]
      [("soil", Val.num 200), ("roll", Val.num 20), ("pitch", Val.num 10),
        ("createdDate", Val.num 2)]
      rfl rfl rfl (by norm_num) (by decide) (by decide) (by decide)
      rfl rfl rfl rfl rfl rfl).1⟩

/-- C7: an event with a missing or non-numeric accl_x, accl_y or accl_z field
(whatever its status, including SENSOR_ERROR) makes the invocation fail during
angle computation before any write: the handler errors out with both stores
exactly as they were, so no entry is inserted and no device update occurs. -/
theorem malformed_accl_fails_before_any_write (ev : Item) (ts : ℤ)
    (scan : List Item) (st : Stores)
    (h : getNum ev "accl_x" = none ∨ getNum ev "accl_y" = none ∨
      getNum ev "accl_z" = none) :
    lambda_handler ev ts scan st = Except.error st := by
  unfold lambda_handler
  rcases h with h | h | h
  · rw [h]
  · rw [h]
    cases getNum ev "accl_x"
    · rfl
    · cases getNum ev "accl_z" <;> rfl
  · rw [h]
    cases getNum ev "accl_x" <;> rfl

/-- C7 witness: a status-OK event with no accl_x field at all. -/
theorem malformed_accl_fails_before_any_write_witness :
    getNum [("status", Val.num 0), ("accl_y", Val.num 1)] "accl_x" = none ∧
    lambda_handler [("status", Val.num 0), ("accl_y", Val.num 1)] 50 []
      ⟨[], []⟩ = Except.error ⟨[], []⟩ :=
  ⟨rfl, malformed_accl_fails_before_any_write _ 50 [] ⟨[], []⟩ (Or.inl rfl)⟩

/-- C10: an event whose status is neither 0 nor -1 writes nothing at all:
insert_entry falls through both branches, calculate_riskfactor returns early,
and the handler succeeds with both stores unchanged. -/
theorem unknown_status_writes_nothing (ev : Item) (ts : ℤ) (scan : List Item)
    (st : Stores) (sv : Val)
    (hstatus : getVal ev "status" = some sv)
    (hne0 : sv ≠ Val.num 0) (hneM1 : sv ≠ Val.num (-1))
    (hax : (getNum ev "accl_x").isSome = true)
    (haz : (getNum ev "accl_z").isSome = true)
    (hay : (getNum ev "accl_y").isSome = true) :
    lambda_handler ev ts scan st = Except.ok st := by
  obtain ⟨x, hx⟩ := Option.isSome_iff_exists.mp hax
  obtain ⟨y, hy⟩ := Option.isSome_iff_exists.mp haz
  obtain ⟨z, hz⟩ := Option.isSome_iff_exists.mp hay
  have hins : insert_entry ev (derive_roll x y z) (derive_pitch x y z) ts
      st.entries = some st.entries := by
    simp [insert_entry, hstatus, hneM1, hne0]
  have hcalc : calculate_riskfactor ev (derive_roll x y z) (derive_pitch x y z)
      ts scan st.devices = some st.devices := by
    simp [calculate_riskfactor, hstatus, hne0]
  unfold lambda_handler
  rw [hx, hy, hz]
  dsimp only
  rw [hins]
  dsimp only
  rw [hcalc]

/-- C10 witness: a concrete event with the unhandled status value 5. -/
theorem unknown_status_writes_nothing_witness :
    Val.num 5 ≠ Val.num 0 ∧ Val.num 5 ≠ Val.num (-1) ∧
    lambda_handler [("status", Val.num 5), ("accl_x", Val.num 1),
      ("accl_y", Val.num 2), ("accl_z", Val.num 3)] 50 [] ⟨[], []⟩ =
      Except.ok ⟨[], []⟩ :=
  ⟨by decide, by decide,
   unknown_status_writes_nothing [("status", Val.num 5), ("accl_x", Val.num 1),
     ("accl_y", Val.num 2), ("accl_z", Val.num 3)] 50 [] ⟨[], []⟩ (Val.num 5)
     rfl (by decide) (by decide) rfl rfl rfl⟩

/-- C5: a SENSOR_ERROR (status = -1) event writes an entry holding exactly the
fields entryUUID, status, deviceID, createdDate — no raw-sensor or derived
fields — and leaves the devices store completely untouched. -/
theorem sensor_error_entry_minimal (ev : Item) (ts : ℤ) (scan : List Item)
    (st : Stores) (uuid dev : Val)
    (hstatus : getVal ev "status" = some (Val.num (-1)))
    (huuid : getVal ev "entryUUID" = some uuid)
    (hdev : getVal ev "deviceID" = some dev)
    (hax : (getNum ev "accl_x").isSome = true)
    (haz : (getNum ev "accl_z").isSome = true)
    (hay : (getNum ev "accl_y").isSome = true) :
    ∃ newE : Item,
      lambda_handler ev ts scan st =
        Except.ok ⟨putRow (entryKeyIs uuid) newE st.entries, st.devices⟩ ∧
      newE.map Prod.fst = ["entryUUID", "status", "deviceID", "createdDate"] := by
  obtain ⟨x, hx⟩ := Option.isSome_iff_exists.mp hax
  obtain ⟨y, hy⟩ := Option.isSome_iff_exists.mp haz
  obtain ⟨z, hz⟩ := Option.isSome_iff_exists.mp hay
  refine ⟨[("entryUUID", uuid), ("status", Val.num (-1)), ("deviceID", dev),
    ("createdDate", Val.num ts)], ?_, rfl⟩
  have hins : insert_entry ev (derive_roll x y z) (derive_pitch x y z) ts
      st.entries = some (putRow (entryKeyIs uuid)
        [("entryUUID", uuid), ("status", Val.num (-1)), ("deviceID", dev),
         ("createdDate", Val.num ts)] st.entries) := by
    simp [insert_entry, hstatus, huuid, hdev]
  have hcalc : calculate_riskfactor ev (derive_roll x y z) (derive_pitch x y z)
      ts scan st.devices = some st.devices := by
    simp [calculate_riskfactor, hstatus]
  unfold lambda_handler
  rw [hx, hy, hz]
  dsimp only
  rw [hins]
  dsimp only
  rw [hcalc]

/-- C5 witness: a concrete SENSOR_ERROR event. -/
theorem sensor_error_entry_minimal_witness :
    getVal [("entryUUID", Val.str "e9"), ("status", Val.num (-1)),
      ("deviceID", Val.str "d1"), ("accl_x", Val.num 1), ("accl_y", Val.num 2),
      ("accl_z", Val.num 3)] "status" = some (Val.num (-1)) ∧
    ∃ newE : Item,
      lambda_handler [("entryUUID", Val.str "e9"), ("status", Val.num (-1)),
        ("deviceID", Val.str "d1"), ("accl_x", Val.num 1), ("accl_y", Val.num 2),
        ("accl_z", Val.num 3)] 77 [] ⟨[], []⟩ =
        Except.ok ⟨putRow (entryKeyIs (Val.str "e9")) newE [], []⟩ ∧
      newE.map Prod.fst = ["entryUUID", "status", "deviceID", "createdDate"] :=
  ⟨by decide,
   sensor_error_entry_minimal [("entryUUID", Val.str "e9"), ("status", Val.num (-1)),
     ("deviceID", Val.str "d1"), ("accl_x", Val.num 1), ("accl_y", Val.num 2),
     ("accl_z", Val.num 3)] 77 [] ⟨[], []⟩ (Val.str "e9") (Val.str "d1")
     rfl rfl rfl rfl rfl rfl⟩

/-- Inversion: a successful numeric lookup is a successful plain lookup of a
numeric value. -/
theorem getNum_eq_some_getVal (it : Item) (k : String) (q : ℚ)
    (h : getNum it k = some q) : getVal it k = some (Val.num q) := by
  unfold getNum at h
  cases hv : getVal it k with
  | none => rw [hv] at h; simp at h
  | some v =>
    rw [hv] at h
    cases v with
    | str s => simp [asNum] at h
    | num q2 =>
      simp [asNum] at h
      rw [h]

/-- For a status-OK event over a well-formed scan sample, the aggregation
always succeeds and its only effect is the device upsert. -/
theorem calculate_riskfactor_succeeds (ev : Item) (roll pitch ts : ℤ)
    (scan devices : List Item) (did : Val)
    (hstatus : getVal ev "status" = some (Val.num 0))
    (hdid : getVal ev "deviceID" = some did)
    (hsoil : (getNum ev "soil").isSome = true)
    (hwf : ∀ it ∈ scan, (getNum it "createdDate").isSome = true ∧
      (getNum it "soil").isSome = true ∧ (getNum it "roll").isSome = true ∧
      (getNum it "pitch").isSome = true) :
    ∃ rf, calculate_riskfactor ev roll pitch ts scan devices =
      some (upsertDevice did rf ts devices) := by
  obtain ⟨soil, hsoil2⟩ := Option.isSome_iff_exists.mp hsoil
  by_cases hl : 2 < scan.length
  · have hperm : (sortByCreatedDate scan).Perm scan := perm_insertionSortB _ scan
    have hslen : (sortByCreatedDate scan).length = scan.length := hperm.length_eq
    have h0l : 0 < (sortByCreatedDate scan).length := by omega
    have h1l : 1 < (sortByCreatedDate scan).length := by omega
    obtain ⟨e0, h0⟩ : ∃ e0, (sortByCreatedDate scan)[0]? = some e0 :=
      ⟨_, List.getElem?_eq_getElem h0l⟩
    obtain ⟨e1, h1⟩ : ∃ e1, (sortByCreatedDate scan)[1]? = some e1 :=
      ⟨_, List.getElem?_eq_getElem h1l⟩
    have hm0 : e0 ∈ scan := hperm.mem_iff.mp (List.getElem?_mem h0)
    have hm1 : e1 ∈ scan := hperm.mem_iff.mp (List.getElem?_mem h1)
    obtain ⟨s0, hs0⟩ := Option.isSome_iff_exists.mp (hwf e0 hm0).2.1
    obtain ⟨r0, hr0⟩ := Option.isSome_iff_exists.mp (hwf e0 hm0).2.2.1
    obtain ⟨p0, hp0⟩ := Option.isSome_iff_exists.mp (hwf e0 hm0).2.2.2
    obtain ⟨s1, hs1⟩ := Option.isSome_iff_exists.mp (hwf e1 hm1).2.1
    obtain ⟨r1, hr1⟩ := Option.isSome_iff_exists.mp (hwf e1 hm1).2.2.1
    obtain ⟨p1, hp1⟩ := Option.isSome_iff_exists.mp (hwf e1 hm1).2.2.2
    exact ⟨_, calculate_riskfactor_eq_formula ev roll pitch ts scan devices did
      soil s0 r0 p0 s1 r1 p1 e0 e1 hstatus hdid hsoil2 hl
      (fun it hit => (hwf it hit).1) h0 h1 hs0 hr0 hp0 hs1 hr1 hp1⟩
  · refine ⟨0, ?_⟩
    simp [calculate_riskfactor, hstatus, hdid, hl]

/-- C8: for a status-OK event (entryUUID fresh, per the upstream uniqueness
contract), the handler succeeds; the entries store only grows by the one new
record appended at the end; every device row for a different deviceID is
carried over unchanged; and every row of the resulting devices store is an old
row unchanged, an old row with exactly riskFactor and lastUpdated modified
(lastUpdated = the invocation timestamp), or the freshly created row holding
exactly deviceID, riskFactor and lastUpdated. -/
theorem ok_event_writes_exactly_riskFactor_and_lastUpdated (ev : Item) (ts : ℤ)
    (scan : List Item) (st : Stores) (uuid dev : Val)
    (hstatus : getVal ev "status" = some (Val.num 0))
    (huuid : getVal ev "entryUUID" = some uuid)
    (hdev : getVal ev "deviceID" = some dev)
    (hax : (getNum ev "accl_x").isSome = true)
    (hay : (getNum ev "accl_y").isSome = true)
    (haz : (getNum ev "accl_z").isSome = true)
    (hgx : (getNum ev "gyro_x").isSome = true)
    (hgy : (getNum ev "gyro_y").isSome = true)
    (hgz : (getNum ev "gyro_z").isSome = true)
    (hrain : (getVal ev "rain").isSome = true)
    (hsoil : (getNum ev "soil").isSome = true)
    (hwf : ∀ it ∈ scan, (getNum it "createdDate").isSome = true ∧
      (getNum it "soil").isSome = true ∧ (getNum it "roll").isSome = true ∧
      (getNum it "pitch").isSome = true)
    (hfresh : ∀ e ∈ st.entries, getVal e "entryUUID" ≠ some uuid) :
    ∃ st1 rf newE,
      lambda_handler ev ts scan st = Except.ok st1 ∧
      st1.entries = st.entries ++ [newE] ∧
      (∀ row ∈ st.devices, getVal row "deviceID" ≠ some dev → row ∈ st1.devices) ∧
      (∀ row1 ∈ st1.devices, row1 ∈ st.devices ∨
        (∃ row ∈ st.devices,
          (∀ k, k ≠ "riskFactor" → k ≠ "lastUpdated" →
            getVal row1 k = getVal row k) ∧
          getVal row1 "riskFactor" = some (Val.num rf) ∧
          getVal row1 "lastUpdated" = some (Val.num ts)) ∨
        row1 = [("deviceID", dev), ("riskFactor", Val.num rf),
          ("lastUpdated", Val.num ts)]) := by
  obtain ⟨ax, hax2⟩ := Option.isSome_iff_exists.mp hax
  obtain ⟨ay, hay2⟩ := Option.isSome_iff_exists.mp hay
  obtain ⟨az, haz2⟩ := Option.isSome_iff_exists.mp haz
  obtain ⟨gx, hgx2⟩ := Option.isSome_iff_exists.mp hgx
  obtain ⟨gy, hgy2⟩ := Option.isSome_iff_exists.mp hgy
  obtain ⟨gz, hgz2⟩ := Option.isSome_iff_exists.mp hgz
  obtain ⟨rn, hrain2⟩ := Option.isSome_iff_exists.mp hrain
  obtain ⟨sl, hsl⟩ := Option.isSome_iff_exists.mp hsoil
  have hsoilval : getVal ev "soil" = some (Val.num sl) :=
    getNum_eq_some_getVal ev "soil" sl hsl
  obtain ⟨rf0, hcalc⟩ := calculate_riskfactor_succeeds ev
    (derive_roll ax az ay) (derive_pitch ax az ay) ts scan st.devices dev
    hstatus hdev hsoil hwf
  have h01 : Val.num 0 ≠ Val.num (-1) := by decide
  have hins : insert_entry ev (derive_roll ax az ay) (derive_pitch ax az ay) ts
      st.entries = some (putRow (entryKeyIs uuid)
        [("entryUUID", uuid), ("status", Val.num 0), ("deviceID", dev),
         ("accl_x", Val.num ax), ("accl_y", Val.num ay), ("accl_z", Val.num az),
         ("gyro_x", Val.num gx), ("gyro_y", Val.num gy), ("gyro_z", Val.num gz),
         ("roll", Val.num (derive_roll ax az ay)),
         ("pitch", Val.num (derive_pitch ax az ay)),
         ("rain", rn), ("soil", Val.num sl),
         ("createdDate", Val.num ts)] st.entries) := by
    simp [insert_entry, hstatus, huuid, hdev, hax2, hay2, haz2, hgx2, hgy2, hgz2,
      hrain2, hsoilval, h01]
  have hfreshB : ∀ e ∈ st.entries, entryKeyIs uuid e = false := by
    intro e he
    simp [entryKeyIs, hfresh e he]
  have hRL : ("riskFactor" : String) ≠ "lastUpdated" := by decide
  obtain ⟨newE, hins2⟩ : ∃ newE, insert_entry ev (derive_roll ax az ay)
      (derive_pitch ax az ay) ts st.entries
        = some (putRow (entryKeyIs uuid) newE st.entries) := ⟨_, hins⟩
  refine ⟨⟨st.entries ++ [newE], upsertDevice dev rf0 ts st.devices⟩, rf0, newE,
    ?_, rfl, ?_, ?_⟩
  · unfold lambda_handler
    rw [hax2, haz2, hay2]
    dsimp only
    rw [hins2]
    dsimp only
    rw [hcalc, putRow_of_fresh _ _ _ hfreshB]
  · intro row hrow hne
    dsimp only
    unfold upsertDevice
    exact mem_upsertRow_of_not_p _ _ _ _ _ hrow (by simp [deviceKeyIs, hne])
  · intro row1 h1
    dsimp only at h1
    unfold upsertDevice at h1
    rcases mem_upsertRow_cases _ _ _ _ _ h1 with h | ⟨e, he, rfl⟩ | rfl
    · exact Or.inl h
    · refine Or.inr (Or.inl ⟨e, he, ?_, ?_, ?_⟩)
      · intro k hk1 hk2
        rw [getVal_setAttr_ne _ _ _ _ hk2, getVal_setAttr_ne _ _ _ _ hk1]
      · rw [getVal_setAttr_ne _ _ _ _ hRL, getVal_setAttr_self]
      · rw [getVal_setAttr_self]
    · exact Or.inr (Or.inr rfl)

/-- C8 witness: a concrete full status-OK event against empty stores. -/
theorem ok_event_writes_exactly_witness :
    getVal [("entryUUID", Val.str "e1"), ("status", Val.num 0),
      ("deviceID", Val.str "d1"), ("accl_x", Val.num 1), ("accl_y", Val.num 2),
      ("accl_z", Val.num 3), ("gyro_x", Val.num 4), ("gyro_y", Val.num 5),
      ("gyro_z", Val.num 6), ("rain", Val.num 7), ("soil", Val.num 8)]
      "status" = some (Val.num 0) ∧
    ∃ st1 rf newE,
      lambda_handler [("entryUUID", Val.str "e1"), ("status", Val.num 0),
        ("deviceID", Val.str "d1"), ("accl_x", Val.num 1), ("accl_y", Val.num 2),
        ("accl_z", Val.num 3), ("gyro_x", Val.num 4), ("gyro_y", Val.num 5),
        ("gyro_z", Val.num 6), ("rain", Val.num 7), ("soil", Val.num 8)]
        42 [] ⟨[], []⟩ = Except.ok st1 ∧
      st1.entries = [] ++ [newE] ∧
      (∀ row ∈ ([] : List Item), getVal row "deviceID" ≠ some (Val.str "d1") →
        row ∈ st1.devices) ∧
      (∀ row1 ∈ st1.devices, row1 ∈ ([] : List Item) ∨
        (∃ row ∈ ([] : List Item),
          (∀ k, k ≠ "riskFactor" → k ≠ "lastUpdated" →
            getVal row1 k = getVal row k) ∧
          getVal row1 "riskFactor" = some (Val.num rf) ∧
          getVal row1 "lastUpdated" = some (Val.num 42)) ∨
        row1 = [("deviceID", Val.str "d1"), ("riskFactor", Val.num rf),
          ("lastUpdated", Val.num 42)]) :=
  ⟨rfl,
   ok_event_writes_exactly_riskFactor_and_lastUpdated
     [("entryUUID", Val.str "e1"), ("status", Val.num 0),
      ("deviceID", Val.str "d1"), ("accl_x", Val.num 1), ("accl_y", Val.num 2),
      ("accl_z", Val.num 3), ("gyro_x", Val.num 4), ("gyro_y", Val.num 5),
      ("gyro_z", Val.num 6), ("rain", Val.num 7), ("soil", Val.num 8)]
     42 [] ⟨[], []⟩ (Val.str "e1") (Val.str "d1")
     rfl rfl rfl rfl rfl rfl rfl rfl rfl rfl rfl (by simp) (by simp)⟩

end RiskLambda
